import Mathlib

/-!
Verification of the AI-service orchestration and response-normalization layer
of the EasyApply repository (server/services/openai.ts, server/services/gemini.ts,
server/services/mockAiService.ts and the /api/resume route handlers).

The TypeScript sources are shallowly embedded as Lean functions over `List Char`.
External effects are modelled by explicit oracles:
  * a `World` record fixes, for one request, the outcome of every provider
    probe and provider call (a `none` call outcome models a thrown
    transport/auth/quota error, `some raw` the textual response content);
  * the process-wide availability flags (`isOpenAIAvailable`,
    `isGeminiAvailable`) are threaded explicitly as `Bool` state;
  * `Math.random()`-derived draws are supplied by a `MockEnv` record; a field
    `d` stands for the value `Math.floor(Math.random() * k)` of one draw, so
    the faithful range constraint `d < k` appears as a hypothesis where needed;
  * `JSON.parse` is modelled by a recursive-descent parser `jsonParseL`;
    JSON numbers are modelled as integers (every numeric field in the data
    model of this repository is an integral score), so inputs containing
    fractional or exponent number syntax simply fail to parse in the model;
  * an ISO-8601 date string produced from a day offset is modelled by the
    day number it encodes (`PostedDate.isoOfDay`).
-/

set_option maxRecDepth 20000
set_option linter.unusedVariables false

/-! ## Character and list utilities -/

/-- Whitespace test used both for the JSON grammar and the `\s` regex class
(the source texts only ever contain ASCII whitespace). -/
def isWsChar (c : Char) : Bool := c = ' ' || c = '\n' || c = '\t' || c = '\r'

/-- The `{` character (written via its code point, per the project style of
keeping brace characters out of literals). -/
def lbrace : Char := Char.ofNat 123

/-- The `}` character. -/
def rbrace : Char := Char.ofNat 125

/-- The backquote character that delimits fenced code blocks. -/
def btick : Char := Char.ofNat 96

/-- `startsWithL pat l` holds when `pat` is an initial segment of `l`. -/
def startsWithL : List Char → List Char → Bool
  | [], _ => true
  | _ :: _, [] => false
  | p :: ps, c :: cs => p = c && startsWithL ps cs

/-- `endsWithL pat l` holds when `pat` is a final segment of `l`. -/
def endsWithL (pat l : List Char) : Bool := startsWithL pat.reverse l.reverse

/-- Drop leading whitespace. -/
def skipW (l : List Char) : List Char := l.dropWhile isWsChar

/-- Drop trailing whitespace. -/
def rstripW (l : List Char) : List Char := (l.reverse.dropWhile isWsChar).reverse

/-- Trim whitespace from both ends (the implicit tolerance of `JSON.parse`). -/
def trimW (l : List Char) : List Char := rstripW (skipW l)

/-- Decimal value of a digit run (the behaviour of `parseInt(s, 10)` on a
match of `\d+`). -/
def natOfDigits (l : List Char) : Nat :=
  l.foldl (fun a c => a * 10 + (c.toNat - 48)) 0

/-- Hexadecimal digit test (for `\uXXXX` escapes). -/
def isHexDigitC (c : Char) : Bool :=
  c.isDigit || (97 ≤ c.toNat && c.toNat ≤ 102) || (65 ≤ c.toNat && c.toNat ≤ 70)

/-! ## The JSON value model and the `JSON.parse` model -/

/-- JSON values; numbers restricted to integers (see file header). -/
inductive Json where
  | null : Json
  | bool : Bool → Json
  | num : Int → Json
  | str : List Char → Json
  | arr : List Json → Json
  | obj : List (List Char × Json) → Json

/-- Body of a JSON string literal after the opening quote; returns the decoded
characters and the remainder after the closing quote. -/
def parseStrBody : Nat → List Char → Option (List Char × List Char)
  | 0, _ => none
  | _ + 1, [] => none
  | fuel + 1, c :: rest =>
    if c = '"' then some ([], rest)
    else if c = '\\' then
      match rest with
      | [] => none
      | e :: rest2 =>
        let dec? : Option (Char × List Char) :=
          if e = '"' then some ('"', rest2)
          else if e = '\\' then some ('\\', rest2)
          else if e = '/' then some ('/', rest2)
          else if e = 'n' then some ('\n', rest2)
          else if e = 't' then some ('\t', rest2)
          else if e = 'r' then some ('\r', rest2)
          else if e = 'b' then some (Char.ofNat 8, rest2)
          else if e = 'f' then some (Char.ofNat 12, rest2)
          else if e = 'u' then
            match rest2 with
            | h1 :: h2 :: h3 :: h4 :: rest3 =>
              if isHexDigitC h1 && isHexDigitC h2 && isHexDigitC h3 && isHexDigitC h4 then
                let hv : Char → Nat := fun h =>
                  if h.isDigit then h.toNat - 48
                  else if h.toNat ≥ 97 then h.toNat - 87 else h.toNat - 55
                some (Char.ofNat (((hv h1 * 16 + hv h2) * 16 + hv h3) * 16 + hv h4), rest3)
              else none
            | _ => none
          else none
        match dec? with
        | none => none
        | some (ch, rest') =>
          match parseStrBody fuel rest' with
          | some (s, r) => some (ch :: s, r)
          | none => none
    else if c.toNat < 32 then none
    else
      match parseStrBody fuel rest with
      | some (s, r) => some (c :: s, r)
      | none => none

/-- A JSON (unsigned) integer literal: one or more digits, no leading zero. -/
def parseNum (cs : List Char) : Option (Nat × List Char) :=
  let ds := cs.takeWhile Char.isDigit
  match ds with
  | [] => none
  | '0' :: _ :: _ => none
  | _ => some (natOfDigits ds, cs.drop ds.length)

mutual

/-- One JSON value starting at the head of the input (no leading-whitespace
skip: the callers skip); returns the value and the raw remainder. -/
def parseValue : Nat → List Char → Option (Json × List Char)
  | 0, _ => none
  | _ + 1, [] => none
  | fuel + 1, c :: rest =>
    if c = lbrace then parseObjBody fuel (skipW rest)
    else if c = '[' then parseArrBody fuel (skipW rest)
    else if c = '"' then
      match parseStrBody fuel rest with
      | some (s, r) => some (Json.str s, r)
      | none => none
    else if c = 't' then
      if startsWithL ['r', 'u', 'e'] rest then some (Json.bool true, rest.drop 3) else none
    else if c = 'f' then
      if startsWithL ['a', 'l', 's', 'e'] rest then some (Json.bool false, rest.drop 4) else none
    else if c = 'n' then
      if startsWithL ['u', 'l', 'l'] rest then some (Json.null, rest.drop 3) else none
    else if c = '-' then
      match parseNum rest with
      | some (n, r) => some (Json.num (-(n : Int)), r)
      | none => none
    else if c.isDigit then
      match parseNum (c :: rest) with
      | some (n, r) => some (Json.num (n : Int), r)
      | none => none
    else none

/-- Object body after the opening brace (whitespace already skipped). -/
def parseObjBody : Nat → List Char → Option (Json × List Char)
  | 0, _ => none
  | _ + 1, [] => none
  | fuel + 1, c :: rest =>
    if c = rbrace then some (Json.obj [], rest)
    else parseMembersFrom fuel (c :: rest) []

/-- Members of an object, first key expected at the head of the input. -/
def parseMembersFrom : Nat → List Char → List (List Char × Json) → Option (Json × List Char)
  | 0, _, _ => none
  | _ + 1, [], _ => none
  | fuel + 1, c :: rest, acc =>
    if c = '"' then
      match parseStrBody fuel rest with
      | none => none
      | some (k, r1) =>
        match skipW r1 with
        | ':' :: r2 =>
          match parseValue fuel (skipW r2) with
          | none => none
          | some (v, r3) =>
            match skipW r3 with
            | ',' :: r4 => parseMembersFrom fuel (skipW r4) (acc ++ [(k, v)])
            | c2 :: r4 => if c2 = rbrace then some (Json.obj (acc ++ [(k, v)]), r4) else none
            | [] => none
        | _ => none
    else none

/-- Array body after the opening bracket (whitespace already skipped). -/
def parseArrBody : Nat → List Char → Option (Json × List Char)
  | 0, _ => none
  | _ + 1, [] => none
  | fuel + 1, c :: rest =>
    if c = ']' then some (Json.arr [], rest)
    else parseItemsFrom fuel (c :: rest) []

/-- Items of an array, first item expected at the head of the input. -/
def parseItemsFrom : Nat → List Char → List Json → Option (Json × List Char)
  | 0, _, _ => none
  | fuel + 1, cs, acc =>
    match parseValue fuel cs with
    | none => none
    | some (v, r1) =>
      match skipW r1 with
      | ',' :: r2 => parseItemsFrom fuel (skipW r2) (acc ++ [v])
      | ']' :: r2 => some (Json.arr (acc ++ [v]), r2)
      | _ => none

end

/-- The model of `JSON.parse`: trim the input, parse one value, require that
nothing but the value is present. -/
def jsonParseL (l : List Char) : Option Json :=
  let t := trimW l
  match parseValue (2 * t.length + 16) t with
  | some (v, []) => some v
  | _ => none

/-! ## `cleanGeminiResponse` (src gemini service, lines 25-86)

The source applies, in order: fence stripping (`^```json\s*`, `^```\s*`,
`\s*```$`), a strict `JSON.parse` check, extraction of lazily matched brace
candidates (`/(\{[\s\S]*?\})/g`) tried longest first, a greedy brace match
(`/(\{[\s\S]*\})/`), and a quote-escaping repair of `:\s*"([^"]*?)"` whose
escaping step is vacuous (the capture can contain no quote) and which
therefore only normalizes the whitespace after the colon. -/

/-- The literal three-backquote fence. -/
def ticks3 : List Char := [btick, btick, btick]

/-- The literal `···json` fence opener. -/
def ticksJson : List Char := ticks3 ++ ['j', 's', 'o', 'n']

/-- `content.replace(/^```json\s*/g, '')`: anchored, so at most one removal. -/
def stripLeadFenceJson (l : List Char) : List Char :=
  if startsWithL ticksJson l then (l.drop 7).dropWhile isWsChar else l

/-- `cleaned.replace(/^```\s*/g, '')`. -/
def stripLeadFence (l : List Char) : List Char :=
  if startsWithL ticks3 l then (l.drop 3).dropWhile isWsChar else l

/-- `cleaned.replace(/\s*```$/g, '')`: the greedy `\s*` takes the maximal
whitespace run before the final fence. -/
def stripTrailFence (l : List Char) : List Char :=
  if endsWithL ticks3 l then rstripW (l.take (l.length - 3)) else l

/-- All matches of the global lazy regex `/(\{[\s\S]*?\})/g`: from each `{`
(scanning left to right, resuming after the previous match) to the nearest
following `}`. -/
def braceMatches : Nat → List Char → List (List Char)
  | 0, _ => []
  | fuel + 1, l =>
    match l.dropWhile (fun c => !(c = lbrace)) with
    | [] => []
    | b :: rest =>
      let body := rest.takeWhile (fun c => !(c = rbrace))
      match rest.dropWhile (fun c => !(c = rbrace)) with
      | [] => []
      | rb :: rest3 => (b :: (body ++ [rb])) :: braceMatches fuel rest3

/-- Stable insertion keeping longer candidates first, the effect of
`matches.sort((a, b) => b.length - a.length)` under V8's stable sort. -/
def insLenDesc (x : List Char) : List (List Char) → List (List Char)
  | [] => [x]
  | y :: ys => if y.length ≤ x.length then x :: y :: ys else y :: insLenDesc x ys

/-- Sort candidates by length, descending, stably. -/
def sortLenDesc (l : List (List Char)) : List (List Char) := l.foldr insLenDesc []

/-- First candidate that `JSON.parse` accepts. -/
def firstParsing : List (List Char) → Option (List Char)
  | [] => none
  | c :: cs => if (jsonParseL c).isSome then some c else firstParsing cs

/-- The greedy match `/(\{[\s\S]*\})/`: from the first `{` to the last `}`
after it. -/
def strictBraceMatch (l : List Char) : Option (List Char) :=
  match l.dropWhile (fun c => !(c = lbrace)) with
  | [] => none
  | b :: rest =>
    match (b :: rest).reverse.dropWhile (fun c => !(c = rbrace)) with
    | [] => none
    | r1 => some r1.reverse

/-- `cleaned.replace(/:\s*"([^"]*?)"/g, ...)`: every `:`-whitespace-quoted-run
is rewritten with a single space after the colon; the escaping of the capture
is the identity because `[^"]` excludes quotes. -/
def escRepair : Nat → List Char → List Char
  | 0, l => l
  | _ + 1, [] => []
  | fuel + 1, c :: rest =>
    if c = ':' then
      let r1 := rest.dropWhile isWsChar
      match r1 with
      | '"' :: r2 =>
        let body := r2.takeWhile (fun d => !(d = '"'))
        match r2.dropWhile (fun d => !(d = '"')) with
        | '"' :: r3 => ':' :: ' ' :: '"' :: (body ++ '"' :: escRepair fuel r3)
        | _ => c :: escRepair fuel rest
      | _ => c :: escRepair fuel rest
    else c :: escRepair fuel rest

/-- The full `cleanGeminiResponse` pipeline. -/
def cleanGeminiResponse (content : List Char) : List Char :=
  let c1 := stripLeadFenceJson content
  let c2 := stripLeadFence c1
  let cleaned := stripTrailFence c2
  if (jsonParseL cleaned).isSome then cleaned
  else
    match firstParsing (sortLenDesc (braceMatches (cleaned.length + 1) cleaned)) with
    | some m => m
    | none =>
      let cleaned2 := match strictBraceMatch cleaned with
        | some m => m
        | none => cleaned
      escRepair (cleaned2.length + 1) cleaned2

/-! ## Regex field extraction (src gemini service, lines 230-279)

`analyzeResumeWithGemini` recovers each expected field of the analysis shape
with a narrow regex on the cleaned content; an unmatched field keeps its
default (zero / empty list). `String.prototype.match` cannot throw, so this
stage always succeeds. -/

/-- One attempted match of `/"<field>"\s*:\s*(\d+)/` at the head position.
`parseInt(m, 10)` on the maximal digit run gives the value. -/
def tryFieldNumAt (pat cs : List Char) : Option Nat :=
  if startsWithL ('"' :: (pat ++ ['"'])) cs then
    match (cs.drop (pat.length + 2)).dropWhile isWsChar with
    | ':' :: r2 =>
      match (r2.dropWhile isWsChar).takeWhile Char.isDigit with
      | [] => none
      | ds => some (natOfDigits ds)
    | _ => none
  else none

/-- Leftmost match of `/"<field>"\s*:\s*(\d+)/` over the content. -/
def scanFieldNum (pat : List Char) : Nat → List Char → Option Nat
  | 0, _ => none
  | _ + 1, [] => none
  | fuel + 1, c :: rest =>
    match tryFieldNumAt pat (c :: rest) with
    | some n => some n
    | none => scanFieldNum pat fuel rest

/-- `content.match(/"<field>"\s*:\s*(\d+)/)` followed by `parseInt`. -/
def findFieldNum (pat cs : List Char) : Option Nat :=
  scanFieldNum pat (cs.length + 1) cs

/-- One attempted match of `/"recommendations"\s*:\s*\[([\s\S]*?)\]/` at the
head position: the lazy capture stops at the first `]`, which must exist. -/
def tryRecsAt (cs : List Char) : Option (List Char) :=
  if startsWithL ('"' :: (("recommendations").data ++ ['"'])) cs then
    match (cs.drop 17).dropWhile isWsChar with
    | ':' :: r2 =>
      match r2.dropWhile isWsChar with
      | '[' :: r3 =>
        match r3.dropWhile (fun c => !(c = ']')) with
        | [] => none
        | _ => some (r3.takeWhile (fun c => !(c = ']')))
      | _ => none
    | _ => none
  else none

/-- Leftmost match of the recommendations regex. -/
def scanRecs : Nat → List Char → Option (List Char)
  | 0, _ => none
  | _ + 1, [] => none
  | fuel + 1, c :: rest =>
    match tryRecsAt (c :: rest) with
    | some b => some b
    | none => scanRecs fuel rest

/-- `content.match(/"recommendations"\s*:\s*\[([\s\S]*?)\]/)`. -/
def findRecs (cs : List Char) : Option (List Char) :=
  scanRecs (cs.length + 1) cs

/-- Leftmost occurrence of the split separator `/",\s*"/`; returns the text
before the separator and the remainder after it. -/
def findRecSep : List Char → Option (List Char × List Char)
  | [] => none
  | c :: rest =>
    let deeper := fun (r : Option (List Char × List Char)) =>
      match r with
      | some (b, a) => some (c :: b, a)
      | none => none
    if c = '"' then
      match rest with
      | ',' :: r2 =>
        match r2.dropWhile isWsChar with
        | '"' :: r4 => some (([] : List Char), r4)
        | _ => deeper (findRecSep rest)
      | _ => deeper (findRecSep rest)
    else deeper (findRecSep rest)

/-- `recText.split(/",\s*"/)`. -/
def splitRecs : Nat → List Char → List (List Char)
  | 0, l => [l]
  | fuel + 1, l =>
    match findRecSep l with
    | none => [l]
    | some (b, a) => b :: splitRecs fuel a

/-- `.replace(/^"/, '')`. -/
def stripLeadQuote : List Char → List Char
  | '"' :: r => r
  | l => l

/-- `.replace(/"$/, '')`. -/
def stripTrailQuote (l : List Char) : List Char :=
  match l.reverse with
  | '"' :: r => r.reverse
  | _ => l

/-- `.replace(/\\"/g, '"')`. -/
def unescQuotes : List Char → List Char
  | [] => []
  | '\\' :: '"' :: rest => '"' :: unescQuotes rest
  | c :: rest => c :: unescQuotes rest

/-- The per-item cleanup applied to each split recommendation. -/
def cleanupRec (l : List Char) : List Char :=
  unescQuotes (stripTrailQuote (stripLeadQuote l))

/-- The `ResumeAnalysisResult` / `ExtractedResumeAnalysis` shape. -/
structure ResumeAnalysisResult where
  overallScore : Int
  atsCompatibility : Int
  keywordOptimization : Int
  experienceRelevance : Int
  recommendations : List (List Char)
deriving DecidableEq

/-- The all-default `extractedData` initial value of the extraction stage. -/
def defaultAnalysis : ResumeAnalysisResult :=
  { overallScore := 0, atsCompatibility := 0, keywordOptimization := 0
    experienceRelevance := 0, recommendations := [] }

/-- The regex extraction stage of `analyzeResumeWithGemini` applied to the
cleaned content: each score keeps 0 when its regex does not match, and the
recommendations are split, dequoted and unescaped when the section capture is
non-empty. -/
def extractedResumeAnalysis (content : List Char) : ResumeAnalysisResult :=
  { overallScore := ((findFieldNum ("overallScore").data content).getD 0 : Nat)
    atsCompatibility := ((findFieldNum ("atsCompatibility").data content).getD 0 : Nat)
    keywordOptimization := ((findFieldNum ("keywordOptimization").data content).getD 0 : Nat)
    experienceRelevance := ((findFieldNum ("experienceRelevance").data content).getD 0 : Nat)
    recommendations :=
      match findRecs content with
      | some body =>
        if body = [] then []
        else (splitRecs (body.length + 1) body).map cleanupRec
      | none => [] }

/-! ## Mock AI service (src/server/services/mockAiService.ts) -/

/-- Which tier actually generated a piece of data (ghost instrumentation of
the embedding; the TypeScript functions return the bare data). -/
inductive Producer where
  | openai : Producer
  | gemini : Producer
  | mock : Producer
deriving DecidableEq

/-- A `postedDate` string: either the ISO date rendering of a day number
(`toISOString().split('T')[0]` of "now minus daysAgo days", modelled by that
day number) or a verbatim provider string. -/
inductive PostedDate where
  | isoOfDay : Int → PostedDate
  | text : List Char → PostedDate
deriving DecidableEq

/-- The `JobMatch` shape. -/
structure JobMatch where
  id : List Char
  title : List Char
  company : List Char
  matchScore : Int
  location : List Char
  salary : List Char
  postedDate : PostedDate
deriving DecidableEq

/-- Outcomes of every `Math.random()` draw made by the mock generators during
one request. A field holding `Math.floor(Math.random() * k)` ranges over
`[0, k)`; that bound is a hypothesis where a theorem needs it. -/
structure MockEnv where
  vd1 : Nat
  vd2 : Nat
  vd3 : Nat
  vd4 : Nat
  scoreDraw : Nat → Nat
  titleDraw : Nat → Nat
  companyDraw : Nat → Nat
  locationDraw : Nat → Nat
  salaryDraw : Nat → Nat
  dateDraw : Nat → Nat
  nowDay : Int

/-- The fixed recommendation pool of `generateMockResumeAnalysis`. -/
def mockRecommendationPool : List (List Char) :=
  [("Use more industry-specific keywords to improve ATS compatibility").data,
   ("Quantify your achievements with specific metrics and results").data,
   ("Ensure your resume has a clean, consistent formatting structure").data,
   ("Tailor your skills section to match the job requirements more closely").data,
   ("Include a concise professional summary at the top of your resume").data]

/-- The two recommendations appended when a job description is present. -/
def jobSpecificRecommendations : List (List Char) :=
  [("Align your work experience more closely with the job requirements").data,
   ("Highlight transferable skills that match this specific position").data]

/-- `generateMockResumeAnalysis`: base score from the text length clamped to
`[40, 75]`, plus per-category variance `randomVariance(lo, hi)`, which is
`lo + Math.floor(Math.random() * (hi - lo + 1))` — the draw appears as a
`MockEnv` field. Recommendations: the fixed pool, extended by two when a
non-empty job description is given, then `slice(0, 5)`. -/
def generateMockResumeAnalysis (resumeText : List Char)
    (jobDescription : Option (List Char)) (env : MockEnv) : ResumeAnalysisResult :=
  let textLength := resumeText.length
  let baseScore : Int := min 75 (max 40 ((textLength / 100 : Nat) : Int))
  let recommendations :=
    mockRecommendationPool ++
      (match jobDescription with
       | some jd => if 0 < jd.length then jobSpecificRecommendations else []
       | none => [])
  { overallScore := baseScore + (-5 + (env.vd1 : Int))
    atsCompatibility := baseScore + (-10 + (env.vd2 : Int))
    keywordOptimization := baseScore + (-8 + (env.vd3 : Int))
    experienceRelevance := baseScore + (-7 + (env.vd4 : Int))
    recommendations := recommendations.take 5 }

/-- The fixed pool of job titles. -/
def jobTitles : List (List Char) :=
  [("Software Engineer").data, ("Frontend Developer").data, ("Full Stack Developer").data,
   ("UI/UX Designer").data, ("Product Manager").data, ("Data Scientist").data,
   ("DevOps Engineer").data, ("Machine Learning Engineer").data, ("Project Manager").data]

/-- The fixed pool of companies. -/
def companiesPool : List (List Char) :=
  [("TechCorp").data, ("Innovate Solutions").data, ("Digital Dynamics").data,
   ("CodeWave").data, ("DataSphere").data, ("Nexus Technologies").data,
   ("Quantum Computing").data, ("Cyber Systems").data, ("Cloud Solutions").data]

/-- The fixed pool of locations. -/
def locationsPool : List (List Char) :=
  [("San Francisco, CA").data, ("New York, NY").data, ("Austin, TX").data,
   ("Seattle, WA").data, ("Boston, MA").data, ("Chicago, IL").data,
   ("Remote").data, ("Los Angeles, CA").data, ("Denver, CO").data]

/-- The fixed pool of salary ranges. -/
def salaryRangesPool : List (List Char) :=
  [("$80,000 - $100,000").data, ("$90,000 - $120,000").data, ("$100,000 - $130,000").data,
   ("$110,000 - $140,000").data, ("$120,000 - $150,000").data, ("$130,000 - $160,000").data]

/-- The keyword pool of `extractPotentialKeywords`. -/
def commonTechKeywords : List (List Char) :=
  [("javascript").data, ("typescript").data, ("react").data, ("node").data,
   ("python").data, ("java").data, ("c#").data, ("c++").data,
   ("html").data, ("css").data, ("aws").data, ("azure").data, ("gcp").data,
   ("docker").data, ("kubernetes").data, ("git").data,
   ("rest").data, ("graphql").data, ("sql").data, ("nosql").data,
   ("mongodb").data, ("postgresql").data, ("mysql").data]

/-- `text.includes(pat)`. -/
def containsSeg (pat : List Char) : List Char → Bool
  | [] => startsWithL pat []
  | c :: rest => startsWithL pat (c :: rest) || containsSeg pat rest

/-- `extractPotentialKeywords`: filter the keyword pool by case-insensitive
containment in the text. -/
def extractPotentialKeywords (text : List Char) : List (List Char) :=
  let textLower := text.map Char.toLower
  commonTechKeywords.filter (fun k => containsSeg k textLower)

/-- `generateMockJobMatches`: the extracted keywords are computed and then
never used; five matches are built from independent draws, with
`matchScore = Math.floor(Math.random() * 31) + 65` and
`postedDate = (now minus Math.floor(Math.random() * 30) days)`. -/
def generateMockJobMatches (resumeText : List Char) (env : MockEnv) : List JobMatch :=
  let _keywords := extractPotentialKeywords resumeText
  (List.range 5).map fun index =>
    { id := ("mock-job-").data ++ (toString (index + 1)).data
      title := jobTitles.getD (env.titleDraw index) []
      company := companiesPool.getD (env.companyDraw index) []
      matchScore := (env.scoreDraw index : Int) + 65
      location := locationsPool.getD (env.locationDraw index) []
      salary := salaryRangesPool.getD (env.salaryDraw index) []
      postedDate := PostedDate.isoOfDay (env.nowDay - (env.dateDraw index : Int)) }

/-- `extractMockResumeText`: a fixed synthetic resume document, parameterized
only by the file's MIME type and byte length. -/
def extractMockResumeText (fileSize : Nat) (fileType : List Char) : List Char :=
  ("\nResume extracted from ").data ++ fileType ++ (" file (").data ++
    (toString fileSize).data ++
    (" bytes).\n\nJOHN DOE\nSoftware Engineer\njohn.doe@example.com | (123) 456-7890 | San Francisco, CA\n\nPROFESSIONAL SUMMARY\nExperienced software engineer with 5+ years developing web applications using React, Node.js, and TypeScript. Passionate about creating intuitive user interfaces and optimizing application performance.\n\nSKILLS\n• Programming: JavaScript, TypeScript, Python, HTML, CSS\n• Frameworks: React, Node.js, Express, Next.js\n• Tools: Git, Docker, AWS, CI/CD pipelines\n• Soft Skills: Communication, Problem-solving, Team collaboration\n\nWORK EXPERIENCE\nSenior Software Engineer\nTechCorp Inc. | Jan 2021 - Present\n• Developed and maintained multiple client-facing applications using React and TypeScript\n• Implemented responsive designs and optimized application performance\n• Collaborated with cross-functional teams to deliver features on schedule\n\nSoftware Engineer\nWeb Solutions LLC | Mar 2018 - Dec 2020\n• Built RESTful APIs using Node.js and Express\n• Integrated third-party services and payment gateways\n• Mentored junior developers and conducted code reviews\n\nEDUCATION\nBachelor of Science in Computer Science\nUniversity of Technology | Graduated 2018\n").data

/-! ## JS field access (`a.k1 || a.k2 || default`) -/

/-- Property lookup on a parsed JSON value; on duplicate keys the later one
wins, as in a JS object literal. Non-objects have no (own) data properties. -/
def jsGet : Json → List Char → Option Json
  | Json.obj fs, k => (fs.reverse.find? (fun p => p.1 == k)).map (fun p => p.2)
  | _, _ => none

/-- JS truthiness of a JSON value. -/
def jsTruthy : Json → Bool
  | Json.null => false
  | Json.bool b => b
  | Json.num n => !(n = 0)
  | Json.str s => !(s = [])
  | Json.arr _ => true
  | Json.obj _ => true

/-- The field if present and truthy. -/
def truthyField (j : Json) (k : List Char) : Option Json :=
  match jsGet j k with
  | some v => if jsTruthy v then some v else none
  | none => none

/-- Numeric reading of a JSON value. The TypeScript stores the raw value with
no coercion; values of the expected fields are numbers, so other truthy shapes
are outside the model's scope and read as 0. -/
def jsonAsNum : Json → Int
  | Json.num n => n
  | _ => 0

/-- String reading of a JSON value (expected fields are strings; anything
else, including a missing field, reads as the empty string). -/
def jsonAsStr : Option Json → List Char
  | some (Json.str s) => s
  | _ => []

/-- `a.k1 || a.k2 || 0` for numeric fields: first truthy value, else 0 (which
is also the value of the `|| 0` default and of any falsy number). -/
def pickNum (j : Json) (k1 k2 : List Char) : Int :=
  match truthyField j k1 with
  | some v => jsonAsNum v
  | none =>
    match truthyField j k2 with
    | some v => jsonAsNum v
    | none => 0

/-- `a.k || dflt` for string fields. -/
def pickStrOr (j : Json) (k dflt : List Char) : List Char :=
  match truthyField j k with
  | some v => jsonAsStr (some v)
  | none => dflt

/-- `a.k1 || a.k2` for string fields: the second value is taken verbatim when
the first is falsy. -/
def pickStr2 (j : Json) (k1 k2 : List Char) : List Char :=
  match truthyField j k1 with
  | some v => jsonAsStr (some v)
  | none => jsonAsStr (jsGet j k2)

/-- `analysisResult.recommendations || []` read as a string list. -/
def pickRecsList (j : Json) : List (List Char) :=
  match truthyField j ("recommendations").data with
  | some (Json.arr xs) => xs.map (fun x => jsonAsStr (some x))
  | some _ => []
  | none => []

/-- The field-renaming normalization applied to a successful OpenAI or Gemini
`JSON.parse` result for the analysis shape (openai service lines 118-124,
gemini service lines 292-298): values pass through without clamping. -/
def analysisResultFromJson (j : Json) : ResumeAnalysisResult :=
  { overallScore := pickNum j ("overallScore").data ("overall_score").data
    atsCompatibility := pickNum j ("atsCompatibility").data ("ats_compatibility").data
    keywordOptimization := pickNum j ("keywordOptimization").data ("keyword_optimization").data
    experienceRelevance := pickNum j ("experienceRelevance").data ("experience_relevance").data
    recommendations := pickRecsList j }

/-- The per-item mapping of a provider `jobs` array entry (openai service
lines 199-207, gemini service lines 401-409): `matchScore` passes through
without clamping; a falsy id is replaced by a synthesized one. -/
def jobMatchFromJson (index : Nat) (job : Json) : JobMatch :=
  { id := pickStrOr job ("id").data (("job-").data ++ (toString (index + 1)).data)
    title := jsonAsStr (jsGet job ("title").data)
    company := jsonAsStr (jsGet job ("company").data)
    matchScore := pickNum job ("matchScore").data ("match_score").data
    location := jsonAsStr (jsGet job ("location").data)
    salary := jsonAsStr (jsGet job ("salary").data)
    postedDate := PostedDate.text (pickStr2 job ("postedDate").data ("posted_date").data) }

/-! ## Worlds: the outcome of every external interaction of one request -/

/-- Oracle for one request. A `none` call outcome is a thrown
transport/auth/quota error; `some raw` is the textual response content
(`some []` covers both an empty and an absent content field). A probe is a
real network call, so its outcome is a `Bool`; the Gemini probe additionally
requires the key to be present (`initGeminiClient` returns `null` without
it). The OpenAI client cannot be constructed without a key (the SDK throws at
module load), so a well-formed world has `openaiProbe → openaiKey`
(`WorldWF`). -/
structure World where
  openaiKey : Bool
  openaiProbe : Bool
  geminiKey : Bool
  geminiProbeNet : Bool
  openaiAnalyzeCall : Option (List Char)
  openaiMatchCall : Option (List Char)
  openaiExtractCall : Option (List Char)
  geminiAnalyzeCall : Option (List Char)
  geminiMatchCall : Option (List Char)

/-- A probe can only succeed when the key it authenticates with exists. -/
def WorldWF (w : World) : Prop := w.openaiProbe = true → w.openaiKey = true

/-- Typed failures that can escape an adapter. -/
inductive ApiError where
  | keyMissing : ApiError
deriving DecidableEq

/-- `response.choices[0].message.content || '{}'`. -/
def contentOrEmptyObj (raw : List Char) : List Char :=
  if raw = [] then [lbrace, rbrace] else raw

/-- The initial value of the module-level `isOpenAIAvailable` flag. -/
def openaiAvailableInit : Bool := true

/-- The initial value of the module-level `isGeminiAvailable` flag. -/
def geminiAvailableInit : Bool := true

/-! ## OpenAI service (src openai service)

Each function takes the current availability flag and returns its result
together with the flag's new value. -/

/-- `checkOpenAIAPIStatus`: a minimal API call; the flag is set to the
outcome. Returns `isValid` (the human-readable message is not modelled). -/
def checkOpenAIAPIStatus (w : World) : Bool × Bool :=
  (w.openaiProbe, w.openaiProbe)

/-- `analyzeResume` (openai service lines 66-142): flag short-circuit, then a
fresh probe, then the call; every failure is caught and answered with the
mock analysis, marking the provider down. -/
def analyzeResume (w : World) (env : MockEnv) (f : Bool) (resumeText : List Char)
    (jobDescription : Option (List Char)) :
    Except ApiError (Producer × ResumeAnalysisResult) × Bool :=
  if f = false then
    (Except.ok (Producer.mock, generateMockResumeAnalysis resumeText jobDescription env), f)
  else
    let (valid, f1) := checkOpenAIAPIStatus w
    if valid = false then
      (Except.ok (Producer.mock, generateMockResumeAnalysis resumeText jobDescription env), f1)
    else
      match w.openaiAnalyzeCall with
      | none =>
        (Except.ok (Producer.mock, generateMockResumeAnalysis resumeText jobDescription env), false)
      | some raw =>
        match jsonParseL (contentOrEmptyObj raw) with
        | none =>
          (Except.ok (Producer.mock, generateMockResumeAnalysis resumeText jobDescription env), false)
        | some j => (Except.ok (Producer.openai, analysisResultFromJson j), true)

/-- `findJobMatches` (openai service lines 148-225): like `analyzeResume`,
with the additional `Array.isArray(jobMatches.jobs)` check whose failure is
thrown and then caught by the same catch-all (net effect: provider down,
mock result). -/
def findJobMatches (w : World) (env : MockEnv) (f : Bool) (resumeText : List Char) :
    Except ApiError (Producer × List JobMatch) × Bool :=
  if f = false then
    (Except.ok (Producer.mock, generateMockJobMatches resumeText env), f)
  else
    let (valid, f1) := checkOpenAIAPIStatus w
    if valid = false then
      (Except.ok (Producer.mock, generateMockJobMatches resumeText env), f1)
    else
      match w.openaiMatchCall with
      | none => (Except.ok (Producer.mock, generateMockJobMatches resumeText env), false)
      | some raw =>
        match jsonParseL (contentOrEmptyObj raw) with
        | none => (Except.ok (Producer.mock, generateMockJobMatches resumeText env), false)
        | some j =>
          match jsGet j ("jobs").data with
          | some (Json.arr xs) =>
            (Except.ok (Producer.openai, xs.enum.map (fun p => jobMatchFromJson p.1 p.2)), true)
          | _ => (Except.ok (Producer.mock, generateMockJobMatches resumeText env), false)

/-- `extractTextFromResume` (openai service lines 232-337): after a valid
probe, a missing `OPENAI_API_KEY` is thrown and deliberately rethrown past
both catch blocks; empty extracted content is thrown and caught (provider
down, mock); every other failure is caught (provider down, mock). -/
def extractTextFromResume (w : World) (f : Bool) (fileSize : Nat) (fileType : List Char) :
    Except ApiError (Producer × List Char) × Bool :=
  if f = false then
    (Except.ok (Producer.mock, extractMockResumeText fileSize fileType), f)
  else
    let (valid, f1) := checkOpenAIAPIStatus w
    if valid = false then
      (Except.ok (Producer.mock, extractMockResumeText fileSize fileType), f1)
    else if w.openaiKey = false then (Except.error ApiError.keyMissing, f1)
    else
      match w.openaiExtractCall with
      | none => (Except.ok (Producer.mock, extractMockResumeText fileSize fileType), false)
      | some s =>
        if s = [] then (Except.ok (Producer.mock, extractMockResumeText fileSize fileType), false)
        else (Except.ok (Producer.openai, s), true)

/-! ## Gemini service (src gemini service) -/

/-- Whether a Gemini probe comes back valid: the key must exist
(`initGeminiClient`) and the test generation must succeed. -/
def geminiProbeOk (w : World) : Bool := w.geminiKey && w.geminiProbeNet

/-- `checkGeminiAPIStatus`: missing key or failed/unexpected test generation
marks the provider down. -/
def checkGeminiAPIStatus (w : World) : Bool × Bool :=
  (geminiProbeOk w, geminiProbeOk w)

/-- `analyzeResumeWithGemini` (gemini service lines 157-315): after a
successful call the response is cleaned and the regex extraction stage runs;
that stage cannot throw, so the `JSON.parse` fallback and the
`MalformedResponse`-style throw after it are unreachable, and a successful
call always yields the extracted (possibly all-default) result. The inner
`initGeminiClient` null-check cannot fire after a valid probe (the probe
already required the key). -/
def analyzeResumeWithGemini (w : World) (env : MockEnv) (f : Bool) (resumeText : List Char)
    (jobDescription : Option (List Char)) :
    Except ApiError (Producer × ResumeAnalysisResult) × Bool :=
  if f = false then
    (Except.ok (Producer.mock, generateMockResumeAnalysis resumeText jobDescription env), f)
  else
    let (valid, f1) := checkGeminiAPIStatus w
    if valid = false then
      (Except.ok (Producer.mock, generateMockResumeAnalysis resumeText jobDescription env), f1)
    else
      match w.geminiAnalyzeCall with
      | none =>
        (Except.ok (Producer.mock, generateMockResumeAnalysis resumeText jobDescription env), false)
      | some raw =>
        (Except.ok (Producer.gemini, extractedResumeAnalysis (cleanGeminiResponse raw)), true)

/-- `findJobMatchesWithGemini` (gemini service lines 321-425): the cleaned
response must `JSON.parse` and carry a `jobs` array; both failures are thrown
and caught by the catch-all (provider down, mock). -/
def findJobMatchesWithGemini (w : World) (env : MockEnv) (f : Bool) (resumeText : List Char) :
    Except ApiError (Producer × List JobMatch) × Bool :=
  if f = false then
    (Except.ok (Producer.mock, generateMockJobMatches resumeText env), f)
  else
    let (valid, f1) := checkGeminiAPIStatus w
    if valid = false then
      (Except.ok (Producer.mock, generateMockJobMatches resumeText env), f1)
    else
      match w.geminiMatchCall with
      | none => (Except.ok (Producer.mock, generateMockJobMatches resumeText env), false)
      | some raw =>
        match jsonParseL (cleanGeminiResponse raw) with
        | none => (Except.ok (Producer.mock, generateMockJobMatches resumeText env), false)
        | some j =>
          match jsGet j ("jobs").data with
          | some (Json.arr xs) =>
            (Except.ok (Producer.gemini, xs.enum.map (fun p => jobMatchFromJson p.1 p.2)), true)
          | _ => (Except.ok (Producer.mock, generateMockJobMatches resumeText env), false)

/-- `extractTextFromResumeWithGemini` (gemini service lines 432-440): a
documented no-op that defers to the mock generator; it never touches the
availability flag. -/
def extractTextFromResumeWithGemini (f : Bool) (fileSize : Nat) (fileType : List Char) :
    Except ApiError (Producer × List Char) × Bool :=
  (Except.ok (Producer.mock, extractMockResumeText fileSize fileType), f)

/-! ## Route handlers (src routes file)

The handlers are embedded for validated input (the zod-validation branches
concern caller-input errors only). The `catch (aiError)` arms of the source
are unreachable — the adapters above are total, proved in the C2 theorem —
and are modelled by the terminal mock response of the source's catch cascade. -/

/-- The `ServiceResponse` returned by a route: the payload, the `service` tag
and the optional degradation `notice` of the JSON body, and the ghost
`producer` saying which tier actually generated the payload. -/
structure ServiceResponse (α : Type) where
  data : α
  producer : Producer
  service : String
  notice : Option String
deriving DecidableEq

/-- Notice attached when the analyze route itself selects the mock tier. -/
def mockAnalysisNotice : String :=
  "This analysis was generated using a mock service because both OpenAI and Gemini APIs are currently unavailable."

/-- Notice attached when the job-matches route itself selects the mock tier. -/
def mockMatchesNotice : String :=
  "These job matches were generated using a mock service because both OpenAI and Gemini APIs are currently unavailable."

/-- Notice of the analyze route's last-resort catch arm. -/
def allFailedAnalysisNotice : String :=
  "This analysis was generated using a mock service because all AI services failed."

/-- Notice of the job-matches route's last-resort catch arm. -/
def allFailedMatchesNotice : String :=
  "These job matches were generated using a mock service because all AI services failed."

/-- `POST /api/resume/analyze` (routes lines 137-243): Gemini first, then
OpenAI, then mock; the response always carries `service`, plus `notice`
exactly when the route itself chose the mock tier. Returns the response and
the two availability flags after the request. -/
def analyzeRouteHandler (w : World) (env : MockEnv) (gFlag oFlag : Bool)
    (resumeText : List Char) (jobDescription : Option (List Char)) :
    ServiceResponse ResumeAnalysisResult × Bool × Bool :=
  let (gValid, gFlag1) := checkGeminiAPIStatus w
  if gValid then
    match analyzeResumeWithGemini w env gFlag1 resumeText jobDescription with
    | (Except.ok (prod, analysis), gFlag2) =>
      ({ data := analysis, producer := prod, service := "gemini", notice := none },
       gFlag2, oFlag)
    | (Except.error _, gFlag2) =>
      ({ data := generateMockResumeAnalysis resumeText jobDescription env,
         producer := Producer.mock, service := "mock",
         notice := some allFailedAnalysisNotice }, gFlag2, oFlag)
  else
    let (oValid, oFlag1) := checkOpenAIAPIStatus w
    if oValid then
      match analyzeResume w env oFlag1 resumeText jobDescription with
      | (Except.ok (prod, analysis), oFlag2) =>
        ({ data := analysis, producer := prod, service := "openai", notice := none },
         gFlag1, oFlag2)
      | (Except.error _, oFlag2) =>
        ({ data := generateMockResumeAnalysis resumeText jobDescription env,
           producer := Producer.mock, service := "mock",
           notice := some allFailedAnalysisNotice }, gFlag1, oFlag2)
    else
      ({ data := generateMockResumeAnalysis resumeText jobDescription env,
         producer := Producer.mock, service := "mock",
         notice := some mockAnalysisNotice }, gFlag1, oFlag1)

/-- `POST /api/resume/job-matches` (routes lines 246-352): OpenAI first, then
Gemini, then mock, with the same tagging discipline. -/
def jobMatchesRouteHandler (w : World) (env : MockEnv) (gFlag oFlag : Bool)
    (resumeText : List Char) :
    ServiceResponse (List JobMatch) × Bool × Bool :=
  let (oValid, oFlag1) := checkOpenAIAPIStatus w
  if oValid then
    match findJobMatches w env oFlag1 resumeText with
    | (Except.ok (prod, ms), oFlag2) =>
      ({ data := ms, producer := prod, service := "openai", notice := none },
       gFlag, oFlag2)
    | (Except.error _, oFlag2) =>
      ({ data := generateMockJobMatches resumeText env,
         producer := Producer.mock, service := "mock",
         notice := some allFailedMatchesNotice }, gFlag, oFlag2)
  else
    let (gValid, gFlag1) := checkGeminiAPIStatus w
    if gValid then
      match findJobMatchesWithGemini w env gFlag1 resumeText with
      | (Except.ok (prod, ms), gFlag2) =>
        ({ data := ms, producer := prod, service := "gemini", notice := none },
         gFlag2, oFlag1)
      | (Except.error _, gFlag2) =>
        ({ data := generateMockJobMatches resumeText env,
           producer := Producer.mock, service := "mock",
           notice := some allFailedMatchesNotice }, gFlag2, oFlag1)
    else
      ({ data := generateMockJobMatches resumeText env,
         producer := Producer.mock, service := "mock",
         notice := some mockMatchesNotice }, gFlag1, oFlag1)

/-! ## Derived success conditions and concrete instances used by the theorems -/

/-- The analyze call succeeded end-to-end for OpenAI: content present (or
defaulted) and parseable. -/
def openaiAnalyzeCallOk (w : World) : Bool :=
  match w.openaiAnalyzeCall with
  | some raw => (jsonParseL (contentOrEmptyObj raw)).isSome
  | none => false

/-- Whether a parsed response carries an array-valued `jobs` property. -/
def jobsArrayOf (j : Json) : Bool :=
  match jsGet j ("jobs").data with
  | some (Json.arr _) => true
  | _ => false

/-- The job-matches call succeeded end-to-end for OpenAI. -/
def openaiMatchCallOk (w : World) : Bool :=
  match w.openaiMatchCall with
  | some raw =>
    match jsonParseL (contentOrEmptyObj raw) with
    | some j => jobsArrayOf j
    | none => false
  | none => false

/-- The text-extraction call succeeded for OpenAI: no error and non-empty
content. -/
def openaiExtractCallOk (w : World) : Bool :=
  match w.openaiExtractCall with
  | some s => !(s = [])
  | none => false

/-- The analyze call succeeded for Gemini (any returned text is accepted by
the regex extraction stage). -/
def geminiAnalyzeCallOk (w : World) : Bool := w.geminiAnalyzeCall.isSome

/-- The job-matches call succeeded end-to-end for Gemini. -/
def geminiMatchCallOk (w : World) : Bool :=
  match w.geminiMatchCall with
  | some raw =>
    match jsonParseL (cleanGeminiResponse raw) with
    | some j => jobsArrayOf j
    | none => false
  | none => false

/-- Which producer an adapter outcome reports, or `none` for a thrown
failure. -/
def adapterProducer {α : Type} : Except ApiError (Producer × α) × Bool → Option Producer
  | (Except.ok (p, _), _) => some p
  | (Except.error _, _) => none

/-- Wrapping a text in a fenced code block, as an LLM typically does. -/
def fenceWrap (s : List Char) : List Char :=
  ticksJson ++ '\n' :: (s ++ '\n' :: ticks3)

/-- No double-quote character occurs in the text. -/
def quoteFree (l : List Char) : Bool := l.all (fun c => !(c = '"'))

/-- A draw environment with all draws at zero (used to instantiate
universally quantified theorems at a concrete point). -/
def env0 : MockEnv :=
  { vd1 := 0, vd2 := 0, vd3 := 0, vd4 := 0
    scoreDraw := fun _ => 0, titleDraw := fun _ => 0, companyDraw := fun _ => 0
    locationDraw := fun _ => 0, salaryDraw := fun _ => 0, dateDraw := fun _ => 0
    nowDay := 0 }

/-- Both providers reachable by probe, every real call failing with a
transport error. -/
def wNet : World :=
  { openaiKey := true, openaiProbe := true, geminiKey := true, geminiProbeNet := true
    openaiAnalyzeCall := none, openaiMatchCall := none, openaiExtractCall := none
    geminiAnalyzeCall := none, geminiMatchCall := none }

/-- OpenAI up and answering the analyze call with an out-of-range score. -/
def w150 : World :=
  { openaiKey := true, openaiProbe := true, geminiKey := false, geminiProbeNet := false
    openaiAnalyzeCall := some ("\x7b\"overallScore\": 150\x7d").data
    openaiMatchCall := none, openaiExtractCall := none
    geminiAnalyzeCall := none, geminiMatchCall := none }

/-- No provider key configured anywhere (probes necessarily fail). -/
def wKeyless : World :=
  { openaiKey := false, openaiProbe := false, geminiKey := false, geminiProbeNet := false
    openaiAnalyzeCall := none, openaiMatchCall := none, openaiExtractCall := none
    geminiAnalyzeCall := none, geminiMatchCall := none }

/-- Raw model output with no recoverable structure at all. -/
def noJsonText : List Char := ("I cannot analyze this resume.").data

/-- Gemini up and answering the analyze call with unstructured text. -/
def wGem : World :=
  { openaiKey := false, openaiProbe := false, geminiKey := true, geminiProbeNet := true
    openaiAnalyzeCall := none, openaiMatchCall := none, openaiExtractCall := none
    geminiAnalyzeCall := some noJsonText, geminiMatchCall := none }

/-- A response that is valid JSON except for single-quoted key/value syntax
and a trailing comma before the closing brace. -/
def singleQuotedIn : List Char := ("\x7b'overallScore': 85,\x7d").data

/-- The valid-JSON equivalent of `singleQuotedIn`. -/
def doubleQuotedIn : List Char := ("\x7b\"overallScore\": 85\x7d").data

/-- A well-formed JSON analysis whose recommendation string contains `]`. -/
def bracketRecIn : List Char :=
  ("\x7b\"overallScore\": 80, \"atsCompatibility\": 70, \"keywordOptimization\": 60, \"experienceRelevance\": 50, \"recommendations\": [\"use [X] tags\"]\x7d").data

/-- Characters that can begin a JSON value in the grammar of `parseValue`. -/
def jsonStartChar (c : Char) : Bool :=
  c = lbrace || c = '[' || c = '"' || c = 't' || c = 'f' || c = 'n' || c = '-' || c.isDigit

/-! ## Claim theorems -/

/-- C10: the mock job-match generator's output is independent of its
`resumeText` argument — for any two input strings and the same sequence of
random draws it returns identical match batches; the keyword extraction it
performs on the input has no effect on the output. -/
theorem c10_mock_matches_input_independent
    (t1 t2 : List Char) (env : MockEnv) :
    generateMockJobMatches t1 env = generateMockJobMatches t2 env := rfl

/-- C8: for every input string, the mock job-match generator returns exactly
5 job matches, each with an integer `matchScore` in `[65, 95]` and a
`postedDate` within the last 30 days of the call time. The hypotheses are
the ranges of the source's `Math.floor(Math.random() * 31)` and
`Math.floor(Math.random() * 30)` draws. -/
theorem c8_mock_match_shape (resumeText : List Char) (env : MockEnv)
    (hs : ∀ i, i < 5 → env.scoreDraw i ≤ 30)
    (hd : ∀ i, i < 5 → env.dateDraw i ≤ 29) :
    (generateMockJobMatches resumeText env).length = 5 ∧
    ∀ m ∈ generateMockJobMatches resumeText env,
      (65 ≤ m.matchScore ∧ m.matchScore ≤ 95) ∧
      ∃ d : Int, m.postedDate = PostedDate.isoOfDay d ∧
        env.nowDay - 30 < d ∧ d ≤ env.nowDay := by
  constructor
  · simp [generateMockJobMatches]
  · intro m hm
    simp only [generateMockJobMatches, List.mem_map, List.mem_range] at hm
    obtain ⟨i, hi, rfl⟩ := hm
    have h1 := hs i hi
    have h2 := hd i hi
    refine ⟨⟨?_, ?_⟩, env.nowDay - (env.dateDraw i : Int), rfl, ?_, ?_⟩ <;>
      dsimp only <;> omega

/-- C8 witness: the theorem at the draw environment with all draws zero. -/
theorem c8_mock_match_shape_witness :
    (generateMockJobMatches ("any text").data env0).length = 5 :=
  (c8_mock_match_shape ("any text").data env0
    (fun i _ => by simp [env0]) (fun i _ => by simp [env0])).1

/-- C4 counterexample: the claim "scores are within [0, 100] regardless of
tier" fails for the provider tiers — with OpenAI up and returning
`overallScore: 150`, `analyzeResume` returns 150 unclamped. -/
theorem c4_counterexample :
    (analyzeResume w150 env0 true ("r").data none).1 =
      Except.ok (Producer.openai,
        { overallScore := 150, atsCompatibility := 0, keywordOptimization := 0
          experienceRelevance := 0, recommendations := [] }) ∧
    ¬((analysisResultFromJson (Json.obj [(("overallScore").data, Json.num 150)])).overallScore ≤ 100) := by
  exact ⟨rfl, by decide⟩

/-- C4 amended: the `[0, 100]` score bounds, the (≤ 7) recommendations cap
and the `[0, 100]` match-score bound hold for every mock-tier result; the
provider tiers pass fields through without clamping (counterexample above).
The hypotheses are the ranges of the source's `randomVariance` /
`Math.floor(Math.random() * 31)` draws. -/
theorem c4_mock_tier_bounds (resumeText : List Char)
    (jobDescription : Option (List Char)) (env : MockEnv)
    (h1 : env.vd1 ≤ 15) (h2 : env.vd2 ≤ 25) (h3 : env.vd3 ≤ 20) (h4 : env.vd4 ≤ 20)
    (hs : ∀ i, i < 5 → env.scoreDraw i ≤ 30) :
    (0 ≤ (generateMockResumeAnalysis resumeText jobDescription env).overallScore ∧
      (generateMockResumeAnalysis resumeText jobDescription env).overallScore ≤ 100) ∧
    (0 ≤ (generateMockResumeAnalysis resumeText jobDescription env).atsCompatibility ∧
      (generateMockResumeAnalysis resumeText jobDescription env).atsCompatibility ≤ 100) ∧
    (0 ≤ (generateMockResumeAnalysis resumeText jobDescription env).keywordOptimization ∧
      (generateMockResumeAnalysis resumeText jobDescription env).keywordOptimization ≤ 100) ∧
    (0 ≤ (generateMockResumeAnalysis resumeText jobDescription env).experienceRelevance ∧
      (generateMockResumeAnalysis resumeText jobDescription env).experienceRelevance ≤ 100) ∧
    (generateMockResumeAnalysis resumeText jobDescription env).recommendations.length ≤ 7 ∧
    ∀ m ∈ generateMockJobMatches resumeText env,
      0 ≤ m.matchScore ∧ m.matchScore ≤ 100 := by
  have hbase : (40 : Int) ≤ min 75 (max 40 ((resumeText.length / 100 : Nat) : Int)) ∧
      min 75 (max 40 ((resumeText.length / 100 : Nat) : Int)) ≤ 75 := by
    constructor
    · exact le_min (by norm_num) (le_max_left _ _)
    · exact min_le_left _ _
  obtain ⟨hb1, hb2⟩ := hbase
  refine ⟨⟨?_, ?_⟩, ⟨?_, ?_⟩, ⟨?_, ?_⟩, ⟨?_, ?_⟩, ?_, ?_⟩
  · dsimp only [generateMockResumeAnalysis]; omega
  · dsimp only [generateMockResumeAnalysis]; omega
  · dsimp only [generateMockResumeAnalysis]; omega
  · dsimp only [generateMockResumeAnalysis]; omega
  · dsimp only [generateMockResumeAnalysis]; omega
  · dsimp only [generateMockResumeAnalysis]; omega
  · dsimp only [generateMockResumeAnalysis]; omega
  · dsimp only [generateMockResumeAnalysis]; omega
  · dsimp only [generateMockResumeAnalysis]
    exact le_trans (List.length_take_le _ _) (by norm_num)
  · intro m hm
    simp only [generateMockJobMatches, List.mem_map, List.mem_range] at hm
    obtain ⟨i, hi, rfl⟩ := hm
    have := hs i hi
    constructor <;> dsimp only <;> omega

/-- C4 witness: the amended bounds at a concrete input and draw
environment. -/
theorem c4_mock_tier_bounds_witness :
    (generateMockResumeAnalysis ("text").data none env0).recommendations.length ≤ 7 :=
  (c4_mock_tier_bounds ("text").data none env0 (by simp [env0]) (by simp [env0])
    (by simp [env0]) (by simp [env0]) (fun i _ => by simp [env0])).2.2.2.2.1

/-- C2 counterexample: with the OpenAI probe succeeding and the analyze call
failing with a transport error, the adapter does not surface a thrown typed
failure — it returns normally, substituting the mock-generated analysis
itself. -/
theorem c2_counterexample :
    (analyzeResume wNet env0 true ("resume").data none).1 =
      Except.ok (Producer.mock, generateMockResumeAnalysis ("resume").data none env0) ∧
    adapterProducer (analyzeResume wNet env0 true ("resume").data none) =
      some Producer.mock := ⟨rfl, rfl⟩

/-- C2 amended: every adapter catches its own failure conditions and
substitutes a mock-generated result, returning normally; fallback happens
inside the adapters, not only in the orchestrating route. Sole exception:
`extractTextFromResume` rethrows a missing-`OPENAI_API_KEY` failure (the
`none` case below), which is only reachable when the probe succeeded without
a key. -/
theorem c2_adapter_internal_fallback
    (w : World) (env : MockEnv) (f : Bool) (resumeText : List Char)
    (jobDescription : Option (List Char)) (fileSize : Nat) (fileType : List Char) :
    adapterProducer (analyzeResume w env f resumeText jobDescription) =
      some (if f && w.openaiProbe && openaiAnalyzeCallOk w then Producer.openai
            else Producer.mock) ∧
    adapterProducer (findJobMatches w env f resumeText) =
      some (if f && w.openaiProbe && openaiMatchCallOk w then Producer.openai
            else Producer.mock) ∧
    adapterProducer (analyzeResumeWithGemini w env f resumeText jobDescription) =
      some (if f && geminiProbeOk w && geminiAnalyzeCallOk w then Producer.gemini
            else Producer.mock) ∧
    adapterProducer (findJobMatchesWithGemini w env f resumeText) =
      some (if f && geminiProbeOk w && geminiMatchCallOk w then Producer.gemini
            else Producer.mock) ∧
    adapterProducer (extractTextFromResume w f fileSize fileType) =
      (if f && w.openaiProbe && !w.openaiKey then none
       else some (if f && w.openaiProbe && w.openaiKey && openaiExtractCallOk w
                  then Producer.openai else Producer.mock)) ∧
    adapterProducer (extractTextFromResumeWithGemini f fileSize fileType) =
      some Producer.mock := by
  refine ⟨?_, ?_, ?_, ?_, ?_, ?_⟩
  · unfold analyzeResume checkOpenAIAPIStatus openaiAnalyzeCallOk
    cases f
    · simp [adapterProducer]
    · cases hp : w.openaiProbe
      · simp [adapterProducer]
      · cases hc : w.openaiAnalyzeCall with
        | none => simp [adapterProducer]
        | some raw =>
          cases hj : jsonParseL (contentOrEmptyObj raw) <;> simp [hj, adapterProducer]
  · unfold findJobMatches checkOpenAIAPIStatus openaiMatchCallOk
    cases f
    · simp [adapterProducer]
    · cases hp : w.openaiProbe
      · simp [adapterProducer]
      · cases hc : w.openaiMatchCall with
        | none => simp [adapterProducer]
        | some raw =>
          cases hj : jsonParseL (contentOrEmptyObj raw) with
          | none => simp [hj, adapterProducer]
          | some j =>
            simp only [hj, Bool.true_and]
            unfold jobsArrayOf
            cases hg : jsGet j (("jobs").data) with
            | none => simp [adapterProducer]
            | some v => cases v <;> simp [adapterProducer]
  · unfold analyzeResumeWithGemini checkGeminiAPIStatus geminiAnalyzeCallOk
    cases f
    · simp [adapterProducer]
    · cases hp : geminiProbeOk w
      · simp [adapterProducer]
      · cases hc : w.geminiAnalyzeCall <;> simp [adapterProducer]
  · unfold findJobMatchesWithGemini checkGeminiAPIStatus geminiMatchCallOk
    cases f
    · simp [adapterProducer]
    · cases hp : geminiProbeOk w
      · simp [adapterProducer]
      · cases hc : w.geminiMatchCall with
        | none => simp [adapterProducer]
        | some raw =>
          cases hj : jsonParseL (cleanGeminiResponse raw) with
          | none => simp [hj, adapterProducer]
          | some j =>
            simp only [hj, Bool.true_and]
            unfold jobsArrayOf
            cases hg : jsGet j (("jobs").data) with
            | none => simp [adapterProducer]
            | some v => cases v <;> simp [adapterProducer]
  · unfold extractTextFromResume checkOpenAIAPIStatus openaiExtractCallOk
    cases f
    · simp [adapterProducer]
    · cases hp : w.openaiProbe
      · simp [adapterProducer]
      · cases hk : w.openaiKey
        · simp [adapterProducer]
        · cases hc : w.openaiExtractCall with
          | none => simp [adapterProducer]
          | some s => by_cases hs : s = [] <;> simp [hs, adapterProducer]
  · rfl

/-- C3 counterexample: on raw text with no recoverable structure (the strict
parse of the cleaned text fails and no brace candidate exists), analyze-shape
normalization does not fail with a raw-text-carrying error — it succeeds,
silently returning the default-valued (all-zero, empty-list) result; the
Gemini adapter accordingly reports a successful provider result. -/
theorem c3_counterexample :
    jsonParseL (cleanGeminiResponse noJsonText) = none ∧
    braceMatches (noJsonText.length + 1) noJsonText = [] ∧
    extractedResumeAnalysis (cleanGeminiResponse noJsonText) = defaultAnalysis ∧
    (analyzeResumeWithGemini wGem env0 true ("r").data none).1 =
      Except.ok (Producer.gemini, defaultAnalysis) := by
  refine ⟨rfl, rfl, by decide, rfl⟩

/-- C3 amended: for the analyze shape, normalization never fails — after any
successful Gemini call, the regex extraction stage is total and the adapter
returns its result, which is the all-zero default when no expected field can
be recovered (counterexample above); only the job-matches shape can fail
with an unparseable-response error. -/
theorem c3_analyze_normalization_total
    (w : World) (env : MockEnv) (resumeText : List Char)
    (jobDescription : Option (List Char)) (raw : List Char)
    (hp : geminiProbeOk w = true) (hc : w.geminiAnalyzeCall = some raw) :
    (analyzeResumeWithGemini w env true resumeText jobDescription).1 =
      Except.ok (Producer.gemini, extractedResumeAnalysis (cleanGeminiResponse raw)) := by
  unfold analyzeResumeWithGemini checkGeminiAPIStatus
  simp [hp, hc]

/-- C3 witness: the amended theorem at the concrete world of the
counterexample. -/
theorem c3_analyze_normalization_total_witness :
    (analyzeResumeWithGemini wGem env0 true ("r").data none).1 =
      Except.ok (Producer.gemini, extractedResumeAnalysis (cleanGeminiResponse noJsonText)) :=
  c3_analyze_normalization_total wGem env0 ("r").data none noJsonText (by decide) rfl

/-- C9: the absence of a provider API key is a normal routing condition: with
no key the probe reports the provider invalid, every operation returns the
mock result normally, and no error is surfaced to the caller. The
well-formedness hypothesis `WorldWF` states that a probe cannot succeed
without the key it authenticates with (the OpenAI SDK cannot even be
constructed without one). -/
theorem c9_missing_key_routes_to_mock
    (w : World) (env : MockEnv) (f : Bool) (resumeText : List Char)
    (jobDescription : Option (List Char)) (fileSize : Nat) (fileType : List Char)
    (hwf : WorldWF w) :
    (w.openaiKey = false →
      (checkOpenAIAPIStatus w).1 = false ∧
      (analyzeResume w env f resumeText jobDescription).1 =
        Except.ok (Producer.mock, generateMockResumeAnalysis resumeText jobDescription env) ∧
      (findJobMatches w env f resumeText).1 =
        Except.ok (Producer.mock, generateMockJobMatches resumeText env) ∧
      (extractTextFromResume w f fileSize fileType).1 =
        Except.ok (Producer.mock, extractMockResumeText fileSize fileType)) ∧
    (w.geminiKey = false →
      (checkGeminiAPIStatus w).1 = false ∧
      (analyzeResumeWithGemini w env f resumeText jobDescription).1 =
        Except.ok (Producer.mock, generateMockResumeAnalysis resumeText jobDescription env) ∧
      (findJobMatchesWithGemini w env f resumeText).1 =
        Except.ok (Producer.mock, generateMockJobMatches resumeText env) ∧
      (extractTextFromResumeWithGemini f fileSize fileType).1 =
        Except.ok (Producer.mock, extractMockResumeText fileSize fileType)) := by
  constructor
  · intro hk
    have hp : w.openaiProbe = false := by
      cases hprobe : w.openaiProbe
      · rfl
      · exact absurd (hwf hprobe) (by simp [hk])
    refine ⟨by simp [checkOpenAIAPIStatus, hp], ?_, ?_, ?_⟩
    · unfold analyzeResume checkOpenAIAPIStatus
      cases f <;> simp [hp]
    · unfold findJobMatches checkOpenAIAPIStatus
      cases f <;> simp [hp]
    · unfold extractTextFromResume checkOpenAIAPIStatus
      cases f <;> simp [hp]
  · intro hk
    have hp : geminiProbeOk w = false := by simp [geminiProbeOk, hk]
    refine ⟨by simp [checkGeminiAPIStatus, hp], ?_, ?_, rfl⟩
    · unfold analyzeResumeWithGemini checkGeminiAPIStatus
      cases f <;> simp [hp]
    · unfold findJobMatchesWithGemini checkGeminiAPIStatus
      cases f <;> simp [hp]

/-- C9 witness: the theorem at the keyless world. -/
theorem c9_missing_key_routes_to_mock_witness :
    (analyzeResume wKeyless env0 true ("r").data none).1 =
      Except.ok (Producer.mock, generateMockResumeAnalysis ("r").data none env0) :=
  (((c9_missing_key_routes_to_mock wKeyless env0 true ("r").data none 1 ("pdf").data
    (fun h => by simp [wKeyless] at h)).1 rfl).2.1)

/-- C1 counterexample: with the Gemini probe succeeding but the Gemini
analyze call failing with a transport error, the analysis returned by the
route is produced by the mock generator, yet the response is tagged
`"gemini"` and carries no notice — refuting "whenever the result was produced
by the mock generator the response also carries a non-empty notice". -/
theorem c1_counterexample :
    ((analyzeRouteHandler wNet env0 true true ("r").data none).1.producer = Producer.mock) ∧
    ((analyzeRouteHandler wNet env0 true true ("r").data none).1.data =
      generateMockResumeAnalysis ("r").data none env0) ∧
    ((analyzeRouteHandler wNet env0 true true ("r").data none).1.service = "gemini") ∧
    ((analyzeRouteHandler wNet env0 true true ("r").data none).1.notice = none) := by
  refine ⟨rfl, rfl, rfl, rfl⟩

/-- C1 amended: every analyze / job-matches response carries a `service` tag
fully determined by the two availability probes (Gemini first for analyze,
OpenAI first for matches), with a non-empty notice exactly when the tag is
`"mock"`; in particular, when both probes fail the tag is `"mock"` with a
non-empty notice. However, when a provider's probe succeeds and its call
then fails, the adapter silently substitutes a mock result that is tagged
with the provider's name and carries no notice (counterexample above). -/
theorem c1_service_tag_discipline
    (w : World) (env : MockEnv) (gFlag oFlag : Bool)
    (resumeText : List Char) (jobDescription : Option (List Char)) :
    ((analyzeRouteHandler w env gFlag oFlag resumeText jobDescription).1.service =
      (if geminiProbeOk w then "gemini" else if w.openaiProbe then "openai" else "mock") ∧
     (analyzeRouteHandler w env gFlag oFlag resumeText jobDescription).1.notice =
      (if geminiProbeOk w then none else if w.openaiProbe then none
       else some mockAnalysisNotice)) ∧
    ((jobMatchesRouteHandler w env gFlag oFlag resumeText).1.service =
      (if w.openaiProbe then "openai" else if geminiProbeOk w then "gemini" else "mock") ∧
     (jobMatchesRouteHandler w env gFlag oFlag resumeText).1.notice =
      (if w.openaiProbe then none else if geminiProbeOk w then none
       else some mockMatchesNotice)) := by
  constructor
  · unfold analyzeRouteHandler checkGeminiAPIStatus checkOpenAIAPIStatus
    cases hg : geminiProbeOk w
    · cases ho : w.openaiProbe
      · simp
      · simp only [Bool.false_eq_true, if_false, if_true, reduceIte]
        unfold analyzeResume checkOpenAIAPIStatus
        simp only [ho]
        cases hc : w.openaiAnalyzeCall with
        | none => simp
        | some raw => cases hj : jsonParseL (contentOrEmptyObj raw) <;> simp [hj]
    · simp only [if_true, reduceIte]
      unfold analyzeResumeWithGemini checkGeminiAPIStatus
      simp only [hg]
      cases hc : w.geminiAnalyzeCall <;> simp
  · unfold jobMatchesRouteHandler checkGeminiAPIStatus checkOpenAIAPIStatus
    cases ho : w.openaiProbe
    · cases hg : geminiProbeOk w
      · simp
      · simp only [Bool.false_eq_true, if_false, if_true, reduceIte]
        unfold findJobMatchesWithGemini checkGeminiAPIStatus
        simp only [hg]
        cases hc : w.geminiMatchCall with
        | none => simp
        | some raw =>
          cases hj : jsonParseL (cleanGeminiResponse raw) with
          | none => simp [hj]
          | some j =>
            simp only [hj]
            cases hv : jsGet j (("jobs").data) with
            | none => simp
            | some v => cases v <;> simp
    · simp only [if_true, reduceIte]
      unfold findJobMatches checkOpenAIAPIStatus
      simp only [ho]
      cases hc : w.openaiMatchCall with
      | none => simp
      | some raw =>
        cases hj : jsonParseL (contentOrEmptyObj raw) with
        | none => simp [hj]
        | some j =>
          simp only [hj]
          cases hv : jsGet j (("jobs").data) with
          | none => simp
          | some v => cases v <;> simp

/-- C5: the availability-flag lifecycle. Each provider's flag starts
"available" (`openaiAvailableInit`, `geminiAvailableInit`); after any
operation, the flag is "available" exactly when the operation's fresh probe
succeeded and, where a call was then attempted, that call also succeeded — so
any call failure or failed probe leaves it "unavailable", and it can return
to "available" only through a fresh successful probe or successful call. The
Gemini text-extraction no-op attempts nothing and passes the flag through
unchanged. -/
theorem c5_availability_flag_lifecycle :
    openaiAvailableInit = true ∧ geminiAvailableInit = true ∧
    ∀ (w : World) (env : MockEnv) (f : Bool) (resumeText : List Char)
      (jobDescription : Option (List Char)) (fileSize : Nat) (fileType : List Char),
      (checkOpenAIAPIStatus w).2 = w.openaiProbe ∧
      (analyzeResume w env f resumeText jobDescription).2 =
        (f && w.openaiProbe && openaiAnalyzeCallOk w) ∧
      (findJobMatches w env f resumeText).2 =
        (f && w.openaiProbe && openaiMatchCallOk w) ∧
      (extractTextFromResume w f fileSize fileType).2 =
        (f && w.openaiProbe && (!w.openaiKey || openaiExtractCallOk w)) ∧
      (checkGeminiAPIStatus w).2 = geminiProbeOk w ∧
      (analyzeResumeWithGemini w env f resumeText jobDescription).2 =
        (f && geminiProbeOk w && geminiAnalyzeCallOk w) ∧
      (findJobMatchesWithGemini w env f resumeText).2 =
        (f && geminiProbeOk w && geminiMatchCallOk w) ∧
      (extractTextFromResumeWithGemini f fileSize fileType).2 = f := by
  refine ⟨rfl, rfl, ?_⟩
  intro w env f resumeText jobDescription fileSize fileType
  refine ⟨rfl, ?_, ?_, ?_, rfl, ?_, ?_, rfl⟩
  · unfold analyzeResume checkOpenAIAPIStatus openaiAnalyzeCallOk
    cases f
    · simp
    · cases hp : w.openaiProbe
      · simp
      · cases hc : w.openaiAnalyzeCall with
        | none => simp
        | some raw => cases hj : jsonParseL (contentOrEmptyObj raw) <;> simp [hj]
  · unfold findJobMatches checkOpenAIAPIStatus openaiMatchCallOk
    cases f
    · simp
    · cases hp : w.openaiProbe
      · simp
      · cases hc : w.openaiMatchCall with
        | none => simp
        | some raw =>
          cases hj : jsonParseL (contentOrEmptyObj raw) with
          | none => simp [hj]
          | some j =>
            simp only [hj]
            unfold jobsArrayOf
            cases hv : jsGet j (("jobs").data) with
            | none => simp
            | some v => cases v <;> simp
  · unfold extractTextFromResume checkOpenAIAPIStatus openaiExtractCallOk
    cases f
    · simp
    · cases hp : w.openaiProbe
      · simp
      · cases hk : w.openaiKey
        · simp
        · cases hc : w.openaiExtractCall with
          | none => simp
          | some s => by_cases hs : s = [] <;> simp [hs]
  · unfold analyzeResumeWithGemini checkGeminiAPIStatus geminiAnalyzeCallOk
    cases f
    · simp
    · cases hp : geminiProbeOk w
      · simp
      · cases hc : w.geminiAnalyzeCall <;> simp
  · unfold findJobMatchesWithGemini checkGeminiAPIStatus geminiMatchCallOk
    cases f
    · simp
    · cases hp : geminiProbeOk w
      · simp
      · cases hc : w.geminiMatchCall with
        | none => simp
        | some raw =>
          cases hj : jsonParseL (cleanGeminiResponse raw) with
          | none => simp [hj]
          | some j =>
            simp only [hj]
            unfold jobsArrayOf
            cases hv : jsGet j (("jobs").data) with
            | none => simp
            | some v => cases v <;> simp

/-! ## Supporting lemmas for the normalizer theorems -/

theorem startsWithL_head {p : Char} {ps l : List Char}
    (h : startsWithL (p :: ps) l = true) : ∃ t, l = p :: t := by
  cases l with
  | nil => simp [startsWithL] at h
  | cons c cs =>
    simp only [startsWithL, Bool.and_eq_true, decide_eq_true_eq] at h
    exact ⟨cs, by rw [h.1]⟩

theorem startsWithL_append_self (p r : List Char) : startsWithL p (p ++ r) = true := by
  induction p with
  | nil => rfl
  | cons c cs ih => simp [startsWithL, ih]

theorem endsWithL_append_self (p l : List Char) : endsWithL p (l ++ p) = true := by
  unfold endsWithL
  rw [List.reverse_append]
  exact startsWithL_append_self _ _

theorem mem_skipW {c : Char} {l : List Char} (h : c ∈ skipW l) : c ∈ l :=
  (List.dropWhile_sublist _).subset h

theorem mem_rstripW {c : Char} {l : List Char} (h : c ∈ rstripW l) : c ∈ l := by
  unfold rstripW at h
  rw [List.mem_reverse] at h
  exact List.mem_reverse.mp ((List.dropWhile_sublist _).subset h)

theorem skipW_append_of_ne_nil {l : List Char} (r : List Char) (h : skipW l ≠ []) :
    skipW (l ++ r) = skipW l ++ r := by
  induction l with
  | nil => simp [skipW] at h
  | cons x xs ih =>
    by_cases hx : isWsChar x
    · have h' : skipW xs ≠ [] := by simpa [skipW, hx] using h
      simp only [skipW, List.cons_append, List.dropWhile_cons_of_pos hx]
      exact ih h'
    · simp [skipW, List.dropWhile_cons_of_neg hx]

theorem rstripW_append_ws {d : Char} (l : List Char) (hd : isWsChar d = true) :
    rstripW (l ++ [d]) = rstripW l := by
  unfold rstripW
  rw [List.reverse_append]
  simp [List.dropWhile_cons_of_pos hd]

theorem skipW_skipW (l : List Char) : skipW (skipW l) = skipW l := by
  unfold skipW
  cases h : l.dropWhile isWsChar with
  | nil => rfl
  | cons c t =>
    have := List.head?_dropWhile_not isWsChar l
    rw [h] at this
    simp only [List.head?] at this
    exact List.dropWhile_cons_of_neg (by simp [this])

theorem rstripW_isPrefix (l : List Char) : rstripW l <+: l := by
  unfold rstripW
  rw [← List.reverse_reverse l]
  rw [List.reverse_prefix]
  simpa using List.dropWhile_suffix (l := l.reverse) isWsChar

theorem rstripW_head {x : Char} {xs : List Char} {c : Char} {t : List Char}
    (h : rstripW (x :: xs) = c :: t) : c = x := by
  have hp := rstripW_isPrefix (x :: xs)
  rw [h] at hp
  exact (List.cons_prefix_cons.mp hp).1

theorem rstripW_rstripW (l : List Char) : rstripW (rstripW l) = rstripW l := by
  unfold rstripW
  rw [List.reverse_reverse]
  congr 1
  cases h : l.reverse.dropWhile isWsChar with
  | nil => rfl
  | cons c t =>
    have := List.head?_dropWhile_not isWsChar l.reverse
    rw [h] at this
    simp only [List.head?] at this
    exact List.dropWhile_cons_of_neg (by simp [this])

theorem skipW_rstripW_skipW (l : List Char) : skipW (rstripW (skipW l)) = rstripW (skipW l) := by
  cases h : rstripW (skipW l) with
  | nil => simp [skipW]
  | cons c t =>
    have hp := rstripW_isPrefix (skipW l)
    rw [h] at hp
    obtain ⟨r, hr⟩ := hp
    have hh : (skipW l).head? = some c := by rw [← hr]; rfl
    have hnw := List.head?_dropWhile_not isWsChar l
    unfold skipW at hh
    rw [hh] at hnw
    simp only [] at hnw
    unfold skipW
    exact List.dropWhile_cons_of_neg (by simp [hnw])

theorem trimW_idem (l : List Char) : trimW (trimW l) = trimW l := by
  unfold trimW
  rw [skipW_rstripW_skipW, rstripW_rstripW]

theorem jsonParseL_trimW (l : List Char) : jsonParseL (trimW l) = jsonParseL l := by
  unfold jsonParseL
  rw [trimW_idem]

theorem parseValue_head {fuel : Nat} {cs : List Char} {x : Json × List Char}
    (h : parseValue fuel cs = some x) :
    ∃ c t, cs = c :: t ∧ jsonStartChar c = true := by
  cases fuel with
  | zero => simp [parseValue] at h
  | succ fuel =>
    cases cs with
    | nil => simp [parseValue] at h
    | cons c rest =>
      refine ⟨c, rest, rfl, ?_⟩
      unfold parseValue at h
      unfold jsonStartChar
      split_ifs at h <;> simp_all

theorem jsonStartChar_not_btick {c : Char} (h : jsonStartChar c = true) :
    (c = btick) = False := by
  unfold jsonStartChar at h
  simp only [Bool.or_eq_true, decide_eq_true_eq] at h
  simp only [eq_iff_iff, iff_false]
  intro hc
  subst hc
  revert h
  decide

theorem jsonStartChar_not_ws {c : Char} (h : jsonStartChar c = true) :
    isWsChar c = false := by
  cases hw : isWsChar c
  · rfl
  · exfalso
    have hc : c = ' ' ∨ c = '\n' ∨ c = '\t' ∨ c = '\r' := by
      unfold isWsChar at hw
      simp only [Bool.or_eq_true, decide_eq_true_eq] at hw
      tauto
    rcases hc with rfl | rfl | rfl | rfl <;> revert h <;> decide

theorem jsonParseL_elim {s : List Char} {v : Json} (h : jsonParseL s = some v) :
    parseValue (2 * (trimW s).length + 16) (trimW s) = some (v, []) := by
  simp only [jsonParseL] at h
  split at h
  · next v' heq =>
    rw [show v' = v from Option.some_inj.mp h] at heq
    exact heq
  · simp at h

theorem skipW_eq_cons_of_trim {s : List Char} {c : Char} {t : List Char}
    (h : trimW s = c :: t) : ∃ t', skipW s = c :: t' := by
  unfold trimW at h
  cases hs : skipW s with
  | nil => rw [hs] at h; simp [rstripW] at h
  | cons d ds =>
    rw [hs] at h
    exact ⟨ds, by rw [rstripW_head h]⟩

/-- C7 counterexample: `bracketRecIn` is well-formed JSON of the target
analysis shape, and normalization leaves the text unchanged; but the
extraction stage does not return its content unchanged — the lazy
recommendations regex stops at the first `]`, truncating the recommendation
string `"use [X] tags"` to `"use [X"`. -/
theorem c7_counterexample :
    jsonParseL bracketRecIn =
      some (Json.obj
        [(("overallScore").data, Json.num 80),
         (("atsCompatibility").data, Json.num 70),
         (("keywordOptimization").data, Json.num 60),
         (("experienceRelevance").data, Json.num 50),
         (("recommendations").data, Json.arr [Json.str ("use [X] tags").data])]) ∧
    cleanGeminiResponse bracketRecIn = bracketRecIn ∧
    (extractedResumeAnalysis (cleanGeminiResponse bracketRecIn)).recommendations =
      [("use [X").data] ∧
    ¬(("use [X").data = ("use [X] tags").data) := by
  refine ⟨rfl, rfl, rfl, by decide⟩

/-- C7 amended: for every well-formed JSON text (not itself ending in fence
backquotes), normalization of the fenced wrapping returns the trimmed
original and parses to the same value as the unwrapped version, which
normalization returns unchanged — i.e. the fenced and unwrapped forms yield
the same parsed content. (The further claim that extraction returns the
content unchanged fails when a recommendation string contains a `]`;
counterexample above.) -/
theorem c7_fence_roundtrip (s : List Char) (v : Json)
    (h1 : jsonParseL s = some v) (h2 : endsWithL ticks3 s = false) :
    cleanGeminiResponse (fenceWrap s) = trimW s ∧
    jsonParseL (cleanGeminiResponse (fenceWrap s)) = some v ∧
    cleanGeminiResponse s = s ∧
    jsonParseL (cleanGeminiResponse s) = some v := by
  have hpv := jsonParseL_elim h1
  obtain ⟨c, t, htrim, hstart⟩ := parseValue_head hpv
  obtain ⟨t', hskw⟩ := skipW_eq_cons_of_trim htrim
  have hswne : skipW s ≠ [] := by rw [hskw]; simp
  -- the head of `s` is never a backquote: it is whitespace or the first
  -- character of a JSON value
  have hhead : ∀ x xs, s = x :: xs → ¬(x = btick) := by
    intro x xs hx hxb
    subst hxb
    by_cases hw : isWsChar btick = true
    · exact absurd hw (by decide)
    · have : skipW s = s := by
        rw [hx]
        exact List.dropWhile_cons_of_neg hw
      rw [this, hx] at hskw
      have hc : c = btick := by
        have := (List.cons.injEq _ _ _ _).mp hskw.symm
        exact this.1
      rw [hc] at hstart
      exact absurd hstart (by decide)
  have n1 : startsWithL ticksJson s = false := by
    cases s with
    | nil => rfl
    | cons x xs =>
      cases hsw2 : startsWithL ticksJson (x :: xs)
      · rfl
      · obtain ⟨t2, ht2⟩ := startsWithL_head hsw2
        exact absurd ((List.cons.injEq _ _ _ _).mp ht2).1 (hhead x xs rfl)
  have n2 : startsWithL ticks3 s = false := by
    cases s with
    | nil => rfl
    | cons x xs =>
      cases hsw2 : startsWithL ticks3 (x :: xs)
      · rfl
      · obtain ⟨t2, ht2⟩ := startsWithL_head hsw2
        exact absurd ((List.cons.injEq _ _ _ _).mp ht2).1 (hhead x xs rfl)
  -- the three fence-stripping steps on the fenced input
  have e1 : stripLeadFenceJson (fenceWrap s) = skipW s ++ ('\n' :: ticks3) := by
    unfold stripLeadFenceJson fenceWrap
    rw [if_pos (startsWithL_append_self _ _)]
    have hdrop : (ticksJson ++ '\n' :: (s ++ '\n' :: ticks3)).drop 7 =
        '\n' :: (s ++ '\n' :: ticks3) := by
      have h7 : ticksJson.length = 7 := rfl
      rw [← h7, List.drop_left]
    rw [hdrop, List.dropWhile_cons_of_pos (by decide)]
    exact skipW_append_of_ne_nil _ hswne
  have e2 : stripLeadFence (skipW s ++ ('\n' :: ticks3)) = skipW s ++ ('\n' :: ticks3) := by
    unfold stripLeadFence
    rw [if_neg]
    intro hsw3
    obtain ⟨t3, ht3⟩ := startsWithL_head hsw3
    rw [hskw] at ht3
    have hc : c = btick := ((List.cons.injEq _ _ _ _).mp ht3).1
    rw [hc] at hstart
    exact absurd hstart (by decide)
  have e3 : stripTrailFence (skipW s ++ ('\n' :: ticks3)) = trimW s := by
    unfold stripTrailFence
    have hl : skipW s ++ ('\n' :: ticks3) = (skipW s ++ ['\n']) ++ ticks3 := by simp
    rw [hl, if_pos (endsWithL_append_self _ _)]
    have hlen : ((skipW s ++ ['\n']) ++ ticks3).length - 3 = (skipW s ++ ['\n']).length := by
      simp [ticks3]
    rw [hlen, List.take_left, rstripW_append_ws _ (by decide)]
    rfl
  have hparse : jsonParseL (trimW s) = some v := by rw [jsonParseL_trimW]; exact h1
  have hfenced : cleanGeminiResponse (fenceWrap s) = trimW s := by
    simp only [cleanGeminiResponse, e1, e2, e3, hparse, Option.isSome_some, if_true]
  have hunwrapped : cleanGeminiResponse s = s := by
    simp only [cleanGeminiResponse, stripLeadFenceJson, stripLeadFence, stripTrailFence,
      n1, n2, h2, Bool.false_eq_true, if_false, h1, Option.isSome_some, if_true]
  exact ⟨hfenced, by rw [hfenced]; exact hparse, hunwrapped, by rw [hunwrapped]; exact h1⟩

/-- C7 witness: the roundtrip at a concrete well-formed JSON text. -/
theorem c7_fence_roundtrip_witness :
    jsonParseL (cleanGeminiResponse (fenceWrap doubleQuotedIn)) =
      some (Json.obj [(("overallScore").data, Json.num 85)]) :=
  (c7_fence_roundtrip doubleQuotedIn
    (Json.obj [(("overallScore").data, Json.num 85)]) rfl rfl).2.1

theorem quoteFree_iff {l : List Char} : quoteFree l = true ↔ ∀ c ∈ l, ¬(c = '"') := by
  unfold quoteFree
  rw [List.all_eq_true]
  constructor
  · intro h c hc hq
    have := h c hc
    simp [hq] at this
  · intro h c hc
    simp [h c hc]

theorem quoteFree_of_subset {l m : List Char} (hsub : ∀ c ∈ m, c ∈ l)
    (h : quoteFree l = true) : quoteFree m = true := by
  rw [quoteFree_iff] at *
  exact fun c hc => h c (hsub c hc)

theorem quoteFree_tail {c : Char} {l : List Char} (h : quoteFree (c :: l) = true) :
    quoteFree l = true :=
  quoteFree_of_subset (fun d hd => List.mem_cons_of_mem _ hd) h

theorem braceMatches_chars :
    ∀ (fuel : Nat) (l m : List Char), m ∈ braceMatches fuel l → ∀ c ∈ m, c ∈ l := by
  intro fuel
  induction fuel with
  | zero => intro l m hm; simp [braceMatches] at hm
  | succ fuel ih =>
    intro l m hm c hc
    unfold braceMatches at hm
    cases hd : l.dropWhile (fun c => !(c = lbrace)) with
    | nil => rw [hd] at hm; simp at hm
    | cons b rest =>
      rw [hd] at hm
      dsimp only at hm
      have hbl : ∀ x ∈ (b :: rest), x ∈ l := by
        intro x hx
        rw [← hd] at hx
        exact (List.dropWhile_sublist _).subset hx
      cases he : rest.dropWhile (fun c => !(c = rbrace)) with
      | nil => rw [he] at hm; simp at hm
      | cons rb rest3 =>
        rw [he] at hm
        rcases List.mem_cons.mp hm with rfl | hm2
        · rcases List.mem_cons.mp hc with rfl | hc2
          · exact hbl c (List.mem_cons_self _ _)
          · rcases List.mem_append.mp hc2 with h3 | h3
            · exact hbl c (List.mem_cons_of_mem _ ((List.takeWhile_sublist _).subset h3))
            · rcases List.mem_singleton.mp h3 with rfl
              have : c ∈ rest.dropWhile (fun c => !(c = rbrace)) := by
                rw [he]; exact List.mem_cons_self _ _
              exact hbl c (List.mem_cons_of_mem _ ((List.dropWhile_sublist _).subset this))
        · have h4 := ih rest3 m hm2 c hc
          have : c ∈ rest.dropWhile (fun c => !(c = rbrace)) := by
            rw [he]; exact List.mem_cons_of_mem _ h4
          exact hbl c (List.mem_cons_of_mem _ ((List.dropWhile_sublist _).subset this))

theorem mem_insLenDesc {x y : List Char} {l : List (List Char)}
    (h : x ∈ insLenDesc y l) : x = y ∨ x ∈ l := by
  induction l with
  | nil => simpa [insLenDesc] using h
  | cons z zs ih =>
    unfold insLenDesc at h
    by_cases hc : z.length ≤ y.length
    · rw [if_pos hc] at h
      rcases List.mem_cons.mp h with rfl | h2
      · exact Or.inl rfl
      · exact Or.inr h2
    · rw [if_neg hc] at h
      rcases List.mem_cons.mp h with rfl | h2
      · exact Or.inr (List.mem_cons_self _ _)
      · rcases ih h2 with h3 | h3
        · exact Or.inl h3
        · exact Or.inr (List.mem_cons_of_mem _ h3)

theorem mem_sortLenDesc {x : List Char} {l : List (List Char)}
    (h : x ∈ sortLenDesc l) : x ∈ l := by
  induction l with
  | nil => simp [sortLenDesc] at h
  | cons z zs ih =>
    unfold sortLenDesc at h
    simp only [List.foldr_cons] at h
    rcases mem_insLenDesc h with rfl | h2
    · exact List.mem_cons_self _ _
    · exact List.mem_cons_of_mem _ (ih (by unfold sortLenDesc; exact h2))

theorem firstParsing_mem {l : List (List Char)} {m : List Char}
    (h : firstParsing l = some m) : m ∈ l := by
  induction l with
  | nil => simp [firstParsing] at h
  | cons x xs ih =>
    unfold firstParsing at h
    by_cases hx : (jsonParseL x).isSome = true
    · rw [if_pos hx] at h
      exact (Option.some_inj.mp h) ▸ List.mem_cons_self _ _
    · rw [if_neg hx] at h
      exact List.mem_cons_of_mem _ (ih h)

theorem strictBraceMatch_chars {l m : List Char}
    (h : strictBraceMatch l = some m) : ∀ c ∈ m, c ∈ l := by
  unfold strictBraceMatch at h
  intro c hc
  cases hd : l.dropWhile (fun c => !(c = lbrace)) with
  | nil => rw [hd] at h; simp at h
  | cons b rest =>
    rw [hd] at h
    dsimp only at h
    have hbl : ∀ x ∈ (b :: rest), x ∈ l := by
      intro x hx
      rw [← hd] at hx
      exact (List.dropWhile_sublist _).subset hx
    cases he : (b :: rest).reverse.dropWhile (fun c => !(c = rbrace)) with
    | nil => rw [he] at h; simp at h
    | cons r1 rs =>
      rw [he] at h
      have hm : m = (r1 :: rs).reverse := (Option.some_inj.mp h).symm
      rw [hm] at hc
      rw [List.mem_reverse] at hc
      have : c ∈ (b :: rest).reverse.dropWhile (fun c => !(c = rbrace)) := by
        rw [he]; exact hc
      exact hbl c (List.mem_reverse.mp ((List.dropWhile_sublist _).subset this))

theorem escRepair_quoteFree_id :
    ∀ (fuel : Nat) (l : List Char), quoteFree l = true → escRepair fuel l = l := by
  intro fuel
  induction fuel with
  | zero => intro l h; rfl
  | succ fuel ih =>
    intro l h
    cases l with
    | nil => rfl
    | cons c rest =>
      have hrest := quoteFree_tail h
      unfold escRepair
      by_cases hc : c = ':'
      · rw [if_pos hc]
        dsimp only
        split
        · next r2 heq =>
          exfalso
          have : '"' ∈ rest.dropWhile isWsChar := by
            rw [heq]; exact List.mem_cons_self _ _
          exact (quoteFree_iff.mp hrest '"' ((List.dropWhile_sublist _).subset this)) rfl
        · rw [ih rest hrest]
      · rw [if_neg hc, ih rest hrest]

theorem stripLeadFenceJson_quoteFree {l : List Char} (h : quoteFree l = true) :
    quoteFree (stripLeadFenceJson l) = true := by
  unfold stripLeadFenceJson
  split
  · exact quoteFree_of_subset
      (fun c hc => (List.drop_sublist _ _).subset ((List.dropWhile_sublist _).subset hc)) h
  · exact h

theorem stripLeadFence_quoteFree {l : List Char} (h : quoteFree l = true) :
    quoteFree (stripLeadFence l) = true := by
  unfold stripLeadFence
  split
  · exact quoteFree_of_subset
      (fun c hc => (List.drop_sublist _ _).subset ((List.dropWhile_sublist _).subset hc)) h
  · exact h

theorem stripTrailFence_quoteFree {l : List Char} (h : quoteFree l = true) :
    quoteFree (stripTrailFence l) = true := by
  unfold stripTrailFence
  split
  · exact quoteFree_of_subset
      (fun c hc => (List.take_sublist _ _).subset (mem_rstripW hc)) h
  · exact h

theorem clean_quoteFree {content : List Char} (h : quoteFree content = true) :
    quoteFree (cleanGeminiResponse content) = true := by
  have h3 : quoteFree (stripTrailFence (stripLeadFence (stripLeadFenceJson content))) = true :=
    stripTrailFence_quoteFree (stripLeadFence_quoteFree (stripLeadFenceJson_quoteFree h))
  unfold cleanGeminiResponse
  dsimp only
  split
  · exact h3
  · split
    · next m hm =>
      exact quoteFree_of_subset
        (braceMatches_chars _ _ _ (mem_sortLenDesc (firstParsing_mem hm))) h3
    · have h4 : quoteFree (match strictBraceMatch
          (stripTrailFence (stripLeadFence (stripLeadFenceJson content))) with
        | some m => m
        | none => stripTrailFence (stripLeadFence (stripLeadFenceJson content))) = true := by
        split
        · next m hm => exact quoteFree_of_subset (strictBraceMatch_chars hm) h3
        · exact h3
      rw [escRepair_quoteFree_id _ _ h4]
      exact h4

theorem scanFieldNum_quoteFree (pat : List Char) :
    ∀ (fuel : Nat) (cs : List Char), quoteFree cs = true → scanFieldNum pat fuel cs = none := by
  intro fuel
  induction fuel with
  | zero => intro cs h; rfl
  | succ fuel ih =>
    intro cs h
    cases cs with
    | nil => rfl
    | cons c rest =>
      have hat : tryFieldNumAt pat (c :: rest) = none := by
        unfold tryFieldNumAt
        rw [if_neg]
        intro hsw
        obtain ⟨t, ht⟩ := startsWithL_head hsw
        exact (quoteFree_iff.mp h c (List.mem_cons_self _ _)) ((List.cons.injEq _ _ _ _).mp ht).1
      unfold scanFieldNum
      rw [hat]
      exact ih rest (quoteFree_tail h)

theorem scanRecs_quoteFree :
    ∀ (fuel : Nat) (cs : List Char), quoteFree cs = true → scanRecs fuel cs = none := by
  intro fuel
  induction fuel with
  | zero => intro cs h; rfl
  | succ fuel ih =>
    intro cs h
    cases cs with
    | nil => rfl
    | cons c rest =>
      have hat : tryRecsAt (c :: rest) = none := by
        unfold tryRecsAt
        rw [if_neg]
        intro hsw
        obtain ⟨t, ht⟩ := startsWithL_head hsw
        exact (quoteFree_iff.mp h c (List.mem_cons_self _ _)) ((List.cons.injEq _ _ _ _).mp ht).1
      unfold scanRecs
      rw [hat]
      exact ih rest (quoteFree_tail h)

/-- C6 counterexample: on the single-quoted, trailing-comma variant of a
valid JSON object, no repair is performed (the normalizer has no
quote-normalization or trailing-separator-removal step), so normalization
yields the all-default result rather than the structured value recovered from
the valid-JSON equivalent. -/
theorem c6_counterexample :
    cleanGeminiResponse singleQuotedIn = singleQuotedIn ∧
    extractedResumeAnalysis (cleanGeminiResponse singleQuotedIn) = defaultAnalysis ∧
    (extractedResumeAnalysis (cleanGeminiResponse doubleQuotedIn)).overallScore = 85 ∧
    ¬((extractedResumeAnalysis (cleanGeminiResponse singleQuotedIn)).overallScore =
      (extractedResumeAnalysis (cleanGeminiResponse doubleQuotedIn)).overallScore) := by
  refine ⟨rfl, by decide, by decide, by decide⟩

/-- C6 amended: the normalizer performs no single-quote normalization and no
trailing-comma removal; its field extraction recognizes only double-quoted
field names, so any raw text containing no double quote at all — in
particular the single-quoted/trailing-comma class of the original claim —
normalizes to the default-valued (all-zero, empty-list) analysis instead of
the value that the valid-JSON equivalent yields. -/
theorem c6_quote_free_yields_default (content : List Char)
    (h : quoteFree content = true) :
    extractedResumeAnalysis (cleanGeminiResponse content) = defaultAnalysis := by
  have hq := clean_quoteFree h
  unfold extractedResumeAnalysis defaultAnalysis findFieldNum findRecs
  rw [scanFieldNum_quoteFree _ _ _ hq, scanFieldNum_quoteFree _ _ _ hq,
    scanFieldNum_quoteFree _ _ _ hq, scanFieldNum_quoteFree _ _ _ hq,
    scanRecs_quoteFree _ _ hq]
  rfl

/-- C6 witness: the amended theorem at the single-quoted input. -/
theorem c6_quote_free_yields_default_witness :
    extractedResumeAnalysis (cleanGeminiResponse singleQuotedIn) = defaultAnalysis :=
  c6_quote_free_yields_default singleQuotedIn (by decide)
